import Mathlib

/-!
Verification development for the kiro-simple-tracker utility scripts.

The repository consists of three Python scripts:

* `create_github_issues.py` and `generate_all_issues.py` (the Materializer):
  each iterates over a literal list of issue definitions and writes one JSON
  file per issue into the directory `github-issues`, named
  `phase<P>-issue<NN>.json` with `NN` zero padded to two digits.
* `bulk_create_issues.py` (the Submitter): checks that the directory exists,
  reads the auth token from the environment, globs and sorts the issue files,
  previews every title, asks for confirmation, then POSTs each file to the
  tracker API with a 1 second pause after each request, and finally prints a
  summary and exits non-zero exactly when at least one create failed.

The embedding below translates these scripts into pure Lean functions.  File
system reads are modelled by a content map, the operator input and the remote
tracker by explicit oracles, and all observable actions (file reads, the
confirmation prompt, create requests, sleeps) are recorded in an event trace.
-/

/-- Zero padded decimal rendering of a sequence number, as produced by the
Python format specifier 02d: at least two digits. -/
def pad2 (n : Nat) : String :=
  if n < 10 then "0" ++ toString n else toString n

/-- Lexicographic order on the character lists of two strings, matching
Python string comparison. -/
def charsLe : List Char → List Char → Bool
  | [], _ => true
  | _ :: _, [] => false
  | a :: as, b :: bs =>
    if a.toNat < b.toNat then true
    else if b.toNat < a.toNat then false
    else charsLe as bs

/-- Lexicographic string order used by the sorted builtin on the globbed
file names. -/
def strLe (a b : String) : Bool :=
  charsLe a.data b.data

/-- Stable insertion of one string into a sorted list. -/
def insertSorted (a : String) : List String → List String
  | [] => [a]
  | b :: bs => if strLe a b then a :: b :: bs else b :: insertSorted a bs

/-- Stable ascending sort of the directory listing, modelling the Python
sorted builtin applied to the glob result. -/
def sortStrings : List String → List String
  | [] => []
  | a :: as => insertSorted a (sortStrings as)

/-- Whether the first character list is an initial segment of the second. -/
def prefixChars : List Char → List Char → Bool
  | [], _ => true
  | _ :: _, [] => false
  | a :: as, b :: bs => a == b && prefixChars as bs

/-- The glob pattern of the Submitter: file names matching phase*.json. -/
def isIssueFile (name : String) : Bool :=
  prefixChars "phase".data name.data &&
  prefixChars ".json".data.reverse name.data.reverse

/-- Discovery step of the Submitter, line 80 of bulk_create_issues.py:
glob phase*.json in the issues directory and sort the names. -/
def discover (listing : List String) : List String :=
  sortStrings (listing.filter isIssueFile)

/-- Result of the json.load of one materialized file, as seen by the
Submitter.  malformed means json.load raises, record carries the title
field when present (the only field the Submitter inspects locally). -/
inductive FileContent where
  | malformed
  | record (title : Option String)
deriving DecidableEq

/-- A file content is usable by the preview step when it parses and has a
title field. -/
def FileContent.usable : FileContent → Bool
  | .malformed => false
  | .record none => false
  | .record (some _) => true

/-- Outcome of one requests.post call: either a response whose JSON body
parsed, with status code and the optional number, html_url and message
fields, or an exception (network error, timeout, malformed body). -/
inductive ReqOutcome where
  | response (status : Nat) (number : Option Nat) (htmlUrl : Option String)
      (message : Option String)
  | exception (msg : String)
deriving DecidableEq

/-- Classification of a create request by create_issue, lines 41 to 60 of
bulk_create_issues.py. -/
inductive CreateResult where
  | success (number : Option Nat) (url : Option String)
  | failure (msg : String)
deriving DecidableEq

/-- Translation of create_issue: status 201 yields success with the number
and html_url fields of the body; any other status yields failure with the
message field of the body, defaulting to the string Unknown error; an
exception yields failure with the exception text. -/
def create_issue : ReqOutcome → CreateResult
  | .response status number htmlUrl message =>
    if status = 201 then .success number htmlUrl
    else .failure (message.getD "Unknown error")
  | .exception e => .failure e

/-- Whether a request outcome is the accepting one (HTTP 201). -/
def ReqOutcome.accepted : ReqOutcome → Bool
  | .response status _ _ _ => status == 201
  | .exception _ => false

/-- ASCII lowercase conversion of one character, the effect of the Python
lower method on the characters relevant here. -/
def lowerChar (c : Char) : Char :=
  if 65 ≤ c.toNat ∧ c.toNat ≤ 90 then Char.ofNat (c.toNat + 32) else c

/-- Lowercase form of the operator answer, modelling the Python lower
method. -/
def strToLower (s : String) : String :=
  String.mk (s.data.map lowerChar)

/-- Observable actions of one Submitter run. -/
inductive Event where
  | readFile (name : String)
  | writeFile (name : String)
  | prompt
  | request (name : String)
  | sleep (seconds : Nat)
deriving DecidableEq

/-- Inputs of one Submitter run: whether the issues directory exists, the
optional token from the environment, the directory listing, the content of
each file, the operator answer to the prompt, and the tracker outcome of
the i-th create request. -/
structure Env where
  dirExists : Bool
  token : Option String
  listing : List String
  contents : String → FileContent
  confirm : String
  tracker : Nat → ReqOutcome

/-- Whether the token check of get_github_token passes: the variable must
be set and, by Python truthiness, non-empty. -/
def Env.tokenPresent (env : Env) : Bool :=
  match env.token with
  | none => false
  | some t => t ≠ ""

/-- An entry of the created list: file name, issue number, html url. -/
abbrev CreatedEntry := String × Option Nat × Option String

/-- An entry of the failed list: file name and error message. -/
abbrev FailedEntry := String × String

/-- Result of one Submitter run: the event trace, the created and failed
lists of the summary, the process exit status, and whether the run ended in
an uncaught exception. -/
structure RunOutcome where
  events : List Event
  created : List CreatedEntry
  failed : List FailedEntry
  exitCode : Nat
  crashed : Bool
deriving DecidableEq

/-- Preview step, lines 85 to 89 of bulk_create_issues.py: open every file,
json.load it and read its title.  A malformed file or a missing title field
raises, aborting the run; the returned flag records whether the whole
preview succeeded. -/
def preview (contents : String → FileContent) : List String → List Event × Bool
  | [] => ([], true)
  | f :: fs =>
    if (contents f).usable then
      let rest := preview contents fs
      (.readFile f :: rest.1, rest.2)
    else ([.readFile f], false)

/-- Submission loop, lines 105 to 123 of bulk_create_issues.py: for each
file in order, re-read it, issue the create request, classify the outcome
into the created or failed list, and sleep one second.  The final flag
records whether json.load raised inside the loop. -/
def submitLoop (contents : String → FileContent) (tracker : Nat → ReqOutcome) :
    List String → Nat → List Event × List CreatedEntry × List FailedEntry × Bool
  | [], _ => ([], [], [], false)
  | f :: fs, i =>
    match contents f with
    | .malformed => ([.readFile f], [], [], true)
    | .record _ =>
      let rest := submitLoop contents tracker fs (i + 1)
      match create_issue (tracker i) with
      | .success num url =>
        (.readFile f :: .request f :: .sleep 1 :: rest.1,
         (f, num, url) :: rest.2.1, rest.2.2.1, rest.2.2.2)
      | .failure msg =>
        (.readFile f :: .request f :: .sleep 1 :: rest.1,
         rest.2.1, (f, msg) :: rest.2.2.1, rest.2.2.2)

/-- Translation of main, lines 62 to 151 of bulk_create_issues.py: abort
with status 1 when the issues directory is missing or the token is absent
or empty (Python truthiness of the environment value),
discover and sort the issue files, preview them, prompt, cancel with status
0 on any answer whose lowercase form differs from y, otherwise run the
submission loop and exit non-zero exactly when the failed list is
non-empty. -/
def run (env : Env) : RunOutcome :=
  if !env.dirExists then ⟨[], [], [], 1, false⟩
  else match env.token with
  | none => ⟨[], [], [], 1, false⟩
  | some t =>
    if t = "" then ⟨[], [], [], 1, false⟩
    else
    let files := discover env.listing
    let p := preview env.contents files
    if !p.2 then ⟨p.1, [], [], 1, true⟩
    else if strToLower env.confirm ≠ "y" then ⟨p.1 ++ [.prompt], [], [], 0, false⟩
    else
      let l := submitLoop env.contents env.tracker files 0
      if l.2.2.2 then ⟨p.1 ++ .prompt :: l.1, l.2.1, l.2.2.1, 1, true⟩
      else ⟨p.1 ++ .prompt :: l.1, l.2.1, l.2.2.1,
            if l.2.2.1.isEmpty then 0 else 1, false⟩

/-- Number of create requests recorded in a trace. -/
def requestCount (events : List Event) : Nat :=
  events.countP (fun e => match e with | .request _ => true | _ => false)

/-- Number of accepted outcomes among the len create requests issued from
position start on. -/
def countAccepted (tracker : Nat → ReqOutcome) : Nat → Nat → Nat
  | _, 0 => 0
  | i, n + 1 => (if (tracker i).accepted then 1 else 0) + countAccepted tracker (i + 1) n

/-- The event sequence of a clean submission loop over the given files. -/
def loopTrace : List String → List Event
  | [] => []
  | f :: fs => .readFile f :: .request f :: .sleep 1 :: loopTrace fs

/-- Events that touch the network or the clock. -/
def isReqOrSleep : Event → Bool
  | .request _ => true
  | .sleep _ => true
  | _ => false

/-- The alternating request and pause pattern over the given files. -/
def reqSleepSeq : List String → List Event
  | [] => []
  | f :: fs => .request f :: .sleep 1 :: reqSleepSeq fs

/-- Strict code point comparison of character lists, the strict form of the
Python string order. -/
def charsLt : List Char → List Char → Bool
  | [], [] => false
  | [], _ :: _ => true
  | _ :: _, [] => false
  | a :: as, b :: bs =>
    if a.toNat < b.toNat then true
    else if b.toNat < a.toNat then false
    else charsLt as bs

/-- Strict lexicographic string order. -/
def strLt (a b : String) : Bool :=
  charsLt a.data b.data

/-- One issue definition from the literal lists of the generator
scripts. -/
structure IssueDef where
  phase : String
  number : Nat
  title : String
  body : String
  labels : List String
  effort : String
  dependencies : String

/-- The record written for one issue: the three top level JSON fields.
json.dump with indent 2 is a fixed deterministic injective rendering of
this record, so byte identity of two written files is equality of these
records. -/
structure IssueData where
  title : String
  body : String
  labels : List String
deriving DecidableEq

/-- Body assembly of create_github_issues.py, lines 1580 to 1587: the raw
body followed by the Metadata trailer. -/
def fullBodyEarly (i : IssueDef) : String :=
  i.body ++ "\n\n---\n\n**Metadata:**\n- **Effort:** " ++ i.effort ++
    "\n- **Dependencies:** " ++ i.dependencies ++ "\n"

/-- Body assembly of generate_all_issues.py, lines 861 to 874: the raw
body followed by the Metadata trailer and the Reference trailer. -/
def fullBodyLater (i : IssueDef) : String :=
  i.body ++ "\n\n---\n\n**Metadata:**\n- **Effort:** " ++ i.effort ++
    "\n- **Dependencies:** " ++ i.dependencies ++
    "\n\n## Reference\n\n- `ARCHITECTURE_REVIEW.md` - Issue #" ++ toString i.number ++
    "\n- `REFACTORING_ROADMAP.md` - Phase " ++ i.phase ++ "\n"

/-- The record assembled by create_github_issues.py for one issue. -/
def mkEarly (i : IssueDef) : IssueData :=
  ⟨i.title, fullBodyEarly i, i.labels⟩

/-- The record assembled by generate_all_issues.py for one issue. -/
def mkLater (i : IssueDef) : IssueData :=
  ⟨i.title, fullBodyLater i, i.labels⟩

/-- Path written for one issue, the f-string at line 1590 of
create_github_issues.py and line 876 of generate_all_issues.py. -/
def writePath (i : IssueDef) : String :=
  "github-issues/phase" ++ i.phase ++ "-issue" ++ pad2 i.number ++ ".json"

/-- File name of one issue as the Submitter sees it when scanning the
issues directory. -/
def issueName (phase : String) (number : Nat) : String :=
  "phase" ++ phase ++ "-issue" ++ pad2 number ++ ".json"

/-- File system state for the Materializer: the set of directories and the
content at each path, file contents represented by the record written. -/
structure FS where
  dirs : List String
  files : String → Option IssueData

/-- os.makedirs with exist_ok true: create the directory when absent. -/
def mkdirAll (d : String) (fs : FS) : FS :=
  { fs with dirs := if d ∈ fs.dirs then fs.dirs else d :: fs.dirs }

/-- Opening a path in write mode and dumping a record: any previous content
at that path is overwritten, other paths are untouched. -/
def fsWrite (p : String) (c : IssueData) (fs : FS) : FS :=
  { fs with files := fun q => if q = p then some c else fs.files q }

/-- The generation loop shared by both scripts: write every issue of the
list under its derived path, assembling the record with the given
builder. -/
def writeLoop (mk : IssueDef → IssueData) (issues : List IssueDef) (fs : FS) : FS :=
  issues.foldl (fun s i => fsWrite (writePath i) (mk i) s) fs

/-- Module level run of create_github_issues.py, lines 1571 to 1599:
makedirs then the generation loop over the first literal list. -/
def materializeEarly (issues : List IssueDef) (fs : FS) : FS :=
  writeLoop mkEarly issues (mkdirAll "github-issues" fs)

/-- Module level run of generate_all_issues.py, lines 854 to 885: makedirs
then the generation loop over the second literal list. -/
def materializeLater (issues : List IssueDef) (fs : FS) : FS :=
  writeLoop mkLater issues (mkdirAll "github-issues" fs)

/-- The whole Materializer: the first script followed by the second. -/
def materializeAll (is1 is2 : List IssueDef) (fs : FS) : FS :=
  materializeLater is2 (materializeEarly is1 fs)

/-- The last write a generation loop applies to path p. -/
def lastWritten (mk : IssueDef → IssueData) (issues : List IssueDef) (p : String) :
    Option IssueData :=
  (issues.reverse.find? (fun i => writePath i == p)).map mk

/-- The content the whole Materializer determines for path p, independent
of the prior file system state. -/
def plannedContent (is1 is2 : List IssueDef) (p : String) : Option IssueData :=
  match lastWritten mkLater is2 p with
  | some c => some c
  | none => lastWritten mkEarly is1 p

/-- The phase and sequence keys of the literal list of
create_github_issues.py: phase 1 holds issues 1 to 7, phase 2 holds issues
8 to 14. -/
def batchEarlyKeys : List (String × Nat) :=
  [("1", 1), ("1", 2), ("1", 3), ("1", 4), ("1", 5), ("1", 6), ("1", 7),
   ("2", 8), ("2", 9), ("2", 10), ("2", 11), ("2", 12), ("2", 13), ("2", 14)]

/-- The phase and sequence keys of the literal list of
generate_all_issues.py: phase 3 holds issues 15 to 21, phase 4 holds
issues 22 to 25. -/
def batchLaterKeys : List (String × Nat) :=
  [("3", 15), ("3", 16), ("3", 17), ("3", 18), ("3", 19), ("3", 20), ("3", 21),
   ("4", 22), ("4", 23), ("4", 24), ("4", 25)]

/-- The keys of the whole materialized batch, in generation order. -/
def fullBatchKeys : List (String × Nat) :=
  batchEarlyKeys ++ batchLaterKeys

/-- Strict ascending order on phase and sequence keys: phase strictly
before, or equal phase and strictly smaller sequence. -/
def keyLt (a b : String × Nat) : Bool :=
  strLt a.1 b.1 || (a.1 == b.1 && Nat.blt a.2 b.2)

/-- Whether a key list is strictly ascending under keyLt. -/
def ascendingKeys : List (String × Nat) → Bool
  | [] => true
  | [_] => true
  | a :: b :: rest => keyLt a b && ascendingKeys (b :: rest)

/-- A stub content map whose files all parse and carry a title. -/
def stubContents : String → FileContent :=
  fun _ => .record (some "Fix authentication")

/-- A two file environment whose first request is accepted and whose
second is rejected with status 422 and the message validation failed. -/
def envMixed : Env :=
  { dirExists := true
    token := some "tok"
    listing := ["phase1-issue02.json", "phase1-issue01.json"]
    contents := stubContents
    confirm := "y"
    tracker := fun i =>
      if i = 0 then .response 201 (some 100) (some "https://x/1") none
      else .response 422 none none (some "validation failed") }

/-- A one file environment whose request is accepted. -/
def envSingle : Env :=
  { dirExists := true
    token := some "tok"
    listing := ["phase1-issue01.json"]
    contents := stubContents
    confirm := "Y"
    tracker := fun _ => .response 201 (some 100) (some "https://x/1") none }

/-- An environment whose issues directory is missing. -/
def envNoDir : Env :=
  { envSingle with dirExists := false }

/-- An environment whose token variable is unset. -/
def envNoToken : Env :=
  { envSingle with token := none }

/-- An environment whose operator declines the confirmation prompt. -/
def envDecline : Env :=
  { envSingle with confirm := "n" }

/-- An environment one of whose files does not parse as JSON. -/
def envBadFile : Env :=
  { envSingle with
    listing := ["phase1-issue01.json", "phase1-issue02.json"]
    contents := fun f => if f = "phase1-issue02.json" then .malformed
                         else .record (some "Fix authentication") }

/-! Structural lemmas about the Submitter embedding. -/

lemma countAccepted_le (tr : Nat → ReqOutcome) : ∀ n i, countAccepted tr i n ≤ n := by
  intro n
  induction n with
  | zero => intro i; exact Nat.le_refl 0
  | succ n ih =>
    intro i
    unfold countAccepted
    have := ih (i + 1)
    by_cases h : (tr i).accepted = true <;> simp [h] <;> omega

lemma preview_all_usable (c : String → FileContent) (fs : List String)
    (h : ∀ f ∈ fs, (c f).usable = true) :
    preview c fs = (fs.map Event.readFile, true) := by
  induction fs with
  | nil => rfl
  | cons f fs ih =>
    have hf : (c f).usable = true := h f (by simp)
    have ht : ∀ g ∈ fs, (c g).usable = true := fun g hg => h g (by simp [hg])
    simp [preview, hf, ih ht]

lemma preview_ok_eq (c : String → FileContent) (fs : List String) :
    (preview c fs).2 = fs.all (fun f => (c f).usable) := by
  induction fs with
  | nil => rfl
  | cons f fs ih =>
    by_cases hf : (c f).usable = true
    · simp [preview, hf, ih]
    · have hf' : (c f).usable = false := by simpa using hf
      simp [preview, hf']

lemma preview_events_reads (c : String → FileContent) (fs : List String) :
    ∀ e ∈ (preview c fs).1, ∃ f, e = Event.readFile f := by
  induction fs with
  | nil => simp [preview]
  | cons f fs ih =>
    intro e he
    by_cases hf : (c f).usable = true
    · simp only [preview, hf, if_true, List.mem_cons] at he
      rcases he with he | he
      · exact ⟨f, he⟩
      · exact ih e he
    · have hf' : (c f).usable = false := by simpa using hf
      simp only [preview, hf', Bool.false_eq_true, if_false, List.mem_singleton] at he
      exact ⟨f, he⟩

lemma usable_record (c : FileContent) (h : c.usable = true) :
    ∃ t, c = FileContent.record (some t) := by
  cases c with
  | malformed => simp [FileContent.usable] at h
  | record o =>
    cases o with
    | none => simp [FileContent.usable] at h
    | some t => exact ⟨t, rfl⟩

lemma accepted_success (r : ReqOutcome) (h : r.accepted = true) :
    ∃ n u, create_issue r = CreateResult.success n u := by
  cases r with
  | response s n u m =>
    have hs : s = 201 := by simpa [ReqOutcome.accepted] using h
    exact ⟨n, u, by simp [create_issue, hs]⟩
  | exception e => simp [ReqOutcome.accepted] at h

lemma rejected_failure (r : ReqOutcome) (h : r.accepted = false) :
    ∃ m, create_issue r = CreateResult.failure m := by
  cases r with
  | response s n u m =>
    have hs : ¬ s = 201 := by simpa [ReqOutcome.accepted] using h
    exact ⟨m.getD "Unknown error", by simp [create_issue, hs]⟩
  | exception e => exact ⟨e, rfl⟩

lemma submitLoop_spec (c : String → FileContent) (tr : Nat → ReqOutcome) :
    ∀ (fs : List String), (∀ f ∈ fs, (c f).usable = true) → ∀ i,
      (submitLoop c tr fs i).1 = loopTrace fs ∧
      (submitLoop c tr fs i).2.2.2 = false ∧
      (submitLoop c tr fs i).2.1.length = countAccepted tr i fs.length ∧
      (submitLoop c tr fs i).2.2.1.length = fs.length - countAccepted tr i fs.length := by
  intro fs
  induction fs with
  | nil => intro _ i; exact ⟨rfl, rfl, rfl, rfl⟩
  | cons f fs ih =>
    intro h i
    have hf : (c f).usable = true := h f (by simp)
    obtain ⟨t, hcf⟩ := usable_record (c f) hf
    have ht : ∀ g ∈ fs, (c g).usable = true := fun g hg => h g (by simp [hg])
    obtain ⟨h1, h2, h3, h4⟩ := ih ht (i + 1)
    have hle := countAccepted_le tr fs.length (i + 1)
    by_cases ha : (tr i).accepted = true
    · obtain ⟨n, u, hci⟩ := accepted_success (tr i) ha
      refine ⟨?_, ?_, ?_, ?_⟩ <;>
        (simp [submitLoop, hcf, hci, loopTrace, countAccepted, h1, h2, h3, h4, ha]
         try omega)
    · have ha' : (tr i).accepted = false := by simpa using ha
      obtain ⟨m, hci⟩ := rejected_failure (tr i) ha'
      refine ⟨?_, ?_, ?_, ?_⟩ <;>
        (simp [submitLoop, hcf, hci, loopTrace, countAccepted, h1, h2, h3, h4, ha']
         try omega)

lemma loopTrace_count_request (fs : List String) (f : String) :
    (loopTrace fs).count (Event.request f) = fs.count f := by
  induction fs with
  | nil => rfl
  | cons g gs ih => simp [loopTrace, List.count_cons, ih]

lemma loopTrace_count_read (fs : List String) (f : String) :
    (loopTrace fs).count (Event.readFile f) = fs.count f := by
  induction fs with
  | nil => rfl
  | cons g gs ih => simp [loopTrace, List.count_cons, ih]

lemma loopTrace_count_write (fs : List String) (g : String) :
    (loopTrace fs).count (Event.writeFile g) = 0 := by
  induction fs with
  | nil => rfl
  | cons f fs ih => simp [loopTrace, List.count_cons, ih]

lemma loopTrace_requestCount (fs : List String) :
    requestCount (loopTrace fs) = fs.length := by
  induction fs with
  | nil => rfl
  | cons f fs ih => simp [loopTrace, requestCount, List.countP_cons] at ih ⊢; omega

lemma loopTrace_filter (fs : List String) :
    (loopTrace fs).filter isReqOrSleep = reqSleepSeq fs := by
  induction fs with
  | nil => rfl
  | cons f fs ih => simp [loopTrace, reqSleepSeq, List.filter, isReqOrSleep, ih]

lemma loopTrace_sleep_one (fs : List String) :
    ∀ e ∈ loopTrace fs, ∀ d, e = Event.sleep d → d = 1 := by
  induction fs with
  | nil => simp [loopTrace]
  | cons f fs ih =>
    intro e he d hd
    simp only [loopTrace, List.mem_cons] at he
    rcases he with he | he | he | he
    · subst he; cases hd
    · subst he; cases hd
    · subst he; injection hd with h; omega
    · exact ih e he d hd

lemma mapRead_count_read (fs : List String) (f : String) :
    (fs.map Event.readFile).count (Event.readFile f) = fs.count f := by
  induction fs with
  | nil => rfl
  | cons g gs ih => simp [List.count_cons, ih]

lemma mapRead_count_request (fs : List String) (f : String) :
    (fs.map Event.readFile).count (Event.request f) = 0 := by
  induction fs with
  | nil => rfl
  | cons g gs ih => simp [List.count_cons, ih]

lemma mapRead_count_write (fs : List String) (g : String) :
    (fs.map Event.readFile).count (Event.writeFile g) = 0 := by
  induction fs with
  | nil => rfl
  | cons h hs ih => simp [List.count_cons, ih]

lemma mapRead_requestCount (fs : List String) :
    requestCount (fs.map Event.readFile) = 0 := by
  induction fs with
  | nil => rfl
  | cons g gs ih => simp [requestCount, List.countP_cons] at ih ⊢

lemma mapRead_filter (fs : List String) :
    (fs.map Event.readFile).filter isReqOrSleep = [] := by
  induction fs with
  | nil => rfl
  | cons g gs ih => simp [List.filter, isReqOrSleep, ih]

lemma mapRead_no_sleep (fs : List String) :
    ∀ e ∈ fs.map Event.readFile, ∀ d, e = Event.sleep d → d = 1 := by
  intro e he d hd
  obtain ⟨f, _, hf⟩ := List.mem_map.mp he
  rw [← hf] at hd
  cases hd

lemma requestCount_append (a b : List Event) :
    requestCount (a ++ b) = requestCount a + requestCount b := by
  simp [requestCount, List.countP_append]

lemma requestCount_cons_prompt (a : List Event) :
    requestCount (Event.prompt :: a) = requestCount a := by
  simp [requestCount, List.countP_cons]

lemma insertSorted_perm (a : String) (l : List String) :
    List.Perm (insertSorted a l) (a :: l) := by
  induction l with
  | nil => exact List.Perm.refl _
  | cons b bs ih =>
    unfold insertSorted
    by_cases h : strLe a b = true
    · simp [h]
    · simp only [h, if_false]
      exact (ih.cons b).trans (List.Perm.swap a b bs)

lemma sortStrings_perm (l : List String) : List.Perm (sortStrings l) l := by
  induction l with
  | nil => exact List.Perm.refl _
  | cons a as ih => exact (insertSorted_perm a (sortStrings as)).trans (ih.cons a)

lemma discover_nodup (listing : List String) (h : listing.Nodup) :
    (discover listing).Nodup := by
  exact ((sortStrings_perm _).nodup_iff).mpr (h.filter _)

lemma discover_count (listing : List String) (f : String) (hn : listing.Nodup)
    (hm : f ∈ discover listing) : (discover listing).count f = 1 :=
  List.count_eq_one_of_mem (discover_nodup listing hn) hm

lemma tokenPresent_elim (env : Env) (h : env.tokenPresent = true) :
    ∃ t, env.token = some t ∧ t ≠ "" := by
  unfold Env.tokenPresent at h
  cases htok : env.token with
  | none => rw [htok] at h; simp at h
  | some t => rw [htok] at h; simp at h; exact ⟨t, rfl, h⟩

lemma run_fatal (env : Env) (h : env.dirExists = false ∨ env.token = none) :
    run env = ⟨[], [], [], 1, false⟩ := by
  rcases h with h | h
  · simp [run, h]
  · by_cases hd : env.dirExists <;> simp [run, hd, h]

lemma run_full (env : Env) (hd : env.dirExists = true) (ht : env.tokenPresent = true)
    (hv : ∀ f ∈ discover env.listing, (env.contents f).usable = true)
    (hc : strToLower env.confirm = "y") :
    run env = ⟨(discover env.listing).map Event.readFile ++
                 Event.prompt :: loopTrace (discover env.listing),
               (submitLoop env.contents env.tracker (discover env.listing) 0).2.1,
               (submitLoop env.contents env.tracker (discover env.listing) 0).2.2.1,
               if (submitLoop env.contents env.tracker (discover env.listing) 0).2.2.1.isEmpty
                 then 0 else 1,
               false⟩ := by
  obtain ⟨t, hts, hne⟩ := tokenPresent_elim env ht
  obtain ⟨h1, h2, _, _⟩ := submitLoop_spec env.contents env.tracker (discover env.listing) hv 0
  rw [run, hd, hts]
  simp [preview_all_usable env.contents (discover env.listing) hv, hc, h1, h2, hne]

lemma run_cancel (env : Env) (hd : env.dirExists = true) (ht : env.tokenPresent = true)
    (hv : ∀ f ∈ discover env.listing, (env.contents f).usable = true)
    (hna : strToLower env.confirm ≠ "y") :
    run env = ⟨(discover env.listing).map Event.readFile ++ [Event.prompt],
               [], [], 0, false⟩ := by
  obtain ⟨t, hts, hne⟩ := tokenPresent_elim env ht
  rw [run, hd, hts]
  simp [preview_all_usable env.contents (discover env.listing) hv, hna, hne]

lemma run_crash (env : Env) (hd : env.dirExists = true) (ht : env.tokenPresent = true)
    (hbad : (discover env.listing).all (fun f => (env.contents f).usable) = false) :
    run env = ⟨(preview env.contents (discover env.listing)).1, [], [], 1, true⟩ := by
  obtain ⟨t, hts, hne⟩ := tokenPresent_elim env ht
  have hp : (preview env.contents (discover env.listing)).2 = false := by
    rw [preview_ok_eq]; exact hbad
  rw [run, hd, hts]
  simp [hp, hne]

/-! Claim theorems. -/

/-- C4: create_issue classifies HTTP 201 as success carrying the number
and html_url fields, any other status as failure carrying the message
field when present and the string Unknown error otherwise, and a transport
exception as failure carrying the exception text; in particular a 422
response whose body message is validation failed yields a failed entry
pairing the file name with exactly that string, as the run on envMixed
shows. -/
theorem C4_response_classification :
    (∀ num url msg,
      create_issue (.response 201 num url msg) = .success num url) ∧
    (∀ s num url m, s ≠ 201 →
      create_issue (.response s num url (some m)) = .failure m) ∧
    (∀ s num url, s ≠ 201 →
      create_issue (.response s num url none) = .failure "Unknown error") ∧
    (∀ e, create_issue (.exception e) = .failure e) ∧
    (run envMixed).failed = [("phase1-issue02.json", "validation failed")] := by
  refine ⟨fun n u m => by simp [create_issue],
          fun s n u m hs => by simp [create_issue, hs],
          fun s n u hs => by simp [create_issue, hs],
          fun e => rfl,
          by decide⟩

/-- C4 witness: the classification applied to the concrete 422 response of
the scenario. -/
theorem C4_response_classification_witness :
    create_issue (.response 422 none none (some "validation failed")) =
      .failure "validation failed" :=
  C4_response_classification.2.1 422 none none "validation failed" (by decide)

/-- C5: when the issues directory is missing or the token variable is
absent, the Submitter exits non-zero having produced no events at all, in
particular zero create requests. -/
theorem C5_fatal_before_network (env : Env)
    (h : env.dirExists = false ∨ env.token = none) :
    (run env).exitCode ≠ 0 ∧ requestCount (run env).events = 0 ∧
      (run env).events = [] := by
  rw [run_fatal env h]
  exact ⟨by simp, rfl, rfl⟩

/-- C5 witness: the missing directory case at a concrete environment. -/
theorem C5_fatal_before_network_witness :
    (run envNoDir).exitCode ≠ 0 ∧ requestCount (run envNoDir).events = 0 ∧
      (run envNoDir).events = [] :=
  C5_fatal_before_network envNoDir (Or.inl (by decide))

/-- C6: when the run reaches the confirmation prompt, any answer whose
lowercase form is not y exits with status 0 and zero create requests, and
conversely any create request implies the answer lowered to y. -/
theorem C6_confirmation_gate (env : Env) (hd : env.dirExists = true)
    (ht : env.tokenPresent = true)
    (hv : ∀ f ∈ discover env.listing, (env.contents f).usable = true) :
    (strToLower env.confirm ≠ "y" →
      (run env).exitCode = 0 ∧ requestCount (run env).events = 0) ∧
    (0 < requestCount (run env).events → strToLower env.confirm = "y") := by
  have hcase : ∀ hna : strToLower env.confirm ≠ "y",
      (run env).exitCode = 0 ∧ requestCount (run env).events = 0 := by
    intro hna
    rw [run_cancel env hd ht hv hna]
    refine ⟨rfl, ?_⟩
    simp [requestCount_append, mapRead_requestCount, requestCount]
  refine ⟨hcase, ?_⟩
  intro hpos
  by_contra hne
  obtain ⟨_, h0⟩ := hcase hne
  omega

/-- C6 witness: the declining operator at a concrete environment. -/
theorem C6_confirmation_gate_witness :
    (run envDecline).exitCode = 0 ∧ requestCount (run envDecline).events = 0 :=
  (C6_confirmation_gate envDecline (by decide) (by decide) (by decide)).1
    (by decide)

/-- C10: per record error isolation does not cover reading the records: a
discovered file that does not parse, or whose record lacks a title, makes
the preview raise an uncaught exception, so the run crashes with a
non-zero status, before the confirmation prompt and before any create
request. -/
theorem C10_unreadable_record_aborts (env : Env) (hd : env.dirExists = true)
    (ht : env.tokenPresent = true)
    (hbad : ∃ f ∈ discover env.listing, (env.contents f).usable = false) :
    (run env).crashed = true ∧ (run env).exitCode = 1 ∧
      requestCount (run env).events = 0 ∧
      Event.prompt ∉ (run env).events := by
  have hall : (discover env.listing).all (fun f => (env.contents f).usable) = false := by
    obtain ⟨f, hf, hu⟩ := hbad
    rw [List.all_eq_false]
    exact ⟨f, hf, by simp [hu]⟩
  rw [run_crash env hd ht hall]
  refine ⟨rfl, rfl, ?_, ?_⟩
  · rw [requestCount, List.countP_eq_zero]
    intro e he
    obtain ⟨f, rfl⟩ := preview_events_reads env.contents (discover env.listing) e he
    simp
  · intro hmem
    obtain ⟨f, hf⟩ := preview_events_reads env.contents (discover env.listing) _ hmem
    cases hf

/-- C10 witness: a concrete environment one of whose files is not valid
JSON. -/
theorem C10_unreadable_record_aborts_witness :
    (run envBadFile).crashed = true ∧ (run envBadFile).exitCode = 1 ∧
      requestCount (run envBadFile).events = 0 ∧
      Event.prompt ∉ (run envBadFile).events :=
  C10_unreadable_record_aborts envBadFile (by decide) (by decide) (by decide)

/-- C1: over the N discovered records of a full run, when the tracker
accepts K create requests and rejects or fails the rest, the summary
reports K created and N minus K failed, these add up to the total N, and
the exit status is non-zero exactly when at least one request failed. -/
theorem C1_batch_summary (env : Env) (hd : env.dirExists = true)
    (ht : env.tokenPresent = true)
    (hv : ∀ f ∈ discover env.listing, (env.contents f).usable = true)
    (hc : strToLower env.confirm = "y") :
    (run env).created.length =
      countAccepted env.tracker 0 (discover env.listing).length ∧
    (run env).failed.length =
      (discover env.listing).length -
        countAccepted env.tracker 0 (discover env.listing).length ∧
    (run env).created.length + (run env).failed.length =
      (discover env.listing).length ∧
    ((run env).exitCode ≠ 0 ↔
      0 < (discover env.listing).length -
        countAccepted env.tracker 0 (discover env.listing).length) := by
  obtain ⟨_, _, h3, h4⟩ :=
    submitLoop_spec env.contents env.tracker (discover env.listing) hv 0
  have hle := countAccepted_le env.tracker (discover env.listing).length 0
  rw [run_full env hd ht hv hc]
  dsimp only
  refine ⟨h3, h4, by omega, ?_⟩
  by_cases he :
      (submitLoop env.contents env.tracker (discover env.listing) 0).2.2.1.isEmpty = true
  · have h0 :
        (submitLoop env.contents env.tracker (discover env.listing) 0).2.2.1 = [] :=
      List.isEmpty_iff.mp he
    have h40 : (discover env.listing).length -
        countAccepted env.tracker 0 (discover env.listing).length = 0 := by
      rw [h0] at h4
      simpa using h4.symm
    simp [he, h40]
  · have h0 :
        (submitLoop env.contents env.tracker (discover env.listing) 0).2.2.1 ≠ [] := by
      intro hh
      rw [hh] at he
      exact he rfl
    have hlen :
        (submitLoop env.contents env.tracker (discover env.listing) 0).2.2.1.length ≠ 0 :=
      fun hh => h0 (List.length_eq_zero.mp hh)
    simp [he]
    omega

/-- C1 witness: two discovered records, the first accepted and the second
rejected, give one created, one failed and a non-zero exit. -/
theorem C1_batch_summary_witness :
    (run envMixed).created.length = 1 ∧ (run envMixed).failed.length = 1 ∧
      (run envMixed).exitCode ≠ 0 := by
  obtain ⟨h1, h2, _, h4⟩ :=
    C1_batch_summary envMixed (by decide) (by decide) (by decide) (by decide)
  have hN : (discover envMixed.listing).length = 2 := by decide
  rw [hN] at h1 h2 h4
  have hK : countAccepted envMixed.tracker 0 2 = 1 := by decide
  rw [hK] at h1 h2 h4
  exact ⟨h1, h2, h4.mpr (by omega)⟩

/-- C3: in a full run the loop issues exactly one create request per
discovered record whatever the tracker outcomes are, never crashes on a
per request error, and classifies every attempt into exactly one of the
two result lists. -/
theorem C3_every_record_attempted (env : Env) (hd : env.dirExists = true)
    (ht : env.tokenPresent = true)
    (hv : ∀ f ∈ discover env.listing, (env.contents f).usable = true)
    (hc : strToLower env.confirm = "y") :
    requestCount (run env).events = (discover env.listing).length ∧
    (∀ f, (run env).events.count (Event.request f) =
      (discover env.listing).count f) ∧
    (run env).crashed = false ∧
    (run env).created.length + (run env).failed.length =
      (discover env.listing).length := by
  obtain ⟨_, _, h3, h4⟩ :=
    submitLoop_spec env.contents env.tracker (discover env.listing) hv 0
  have hle := countAccepted_le env.tracker (discover env.listing).length 0
  rw [run_full env hd ht hv hc]
  dsimp only
  refine ⟨?_, ?_, rfl, by omega⟩
  · rw [requestCount_append, mapRead_requestCount, requestCount_cons_prompt,
        loopTrace_requestCount]
    omega
  · intro f
    simp [List.count_append, List.count_cons, mapRead_count_request,
          loopTrace_count_request]

/-- C3 witness: both records of the mixed environment are attempted exactly
once even though the second request fails. -/
theorem C3_every_record_attempted_witness :
    requestCount (run envMixed).events = 2 ∧
      (run envMixed).events.count (Event.request "phase1-issue02.json") = 1 ∧
      (run envMixed).crashed = false := by
  obtain ⟨h1, h2, h3, _⟩ :=
    C3_every_record_attempted envMixed (by decide) (by decide) (by decide) (by decide)
  have hN : (discover envMixed.listing).length = 2 := by decide
  have hc2 : (discover envMixed.listing).count "phase1-issue02.json" = 1 := by decide
  refine ⟨by rw [h1, hN], ?_, h3⟩
  rw [h2 "phase1-issue02.json", hc2]

/-- C9: in a full run the subtrace of network and clock events alternates
strictly between one create request and one pause of exactly one second,
for every file in order and for every tracker behaviour, and every pause in
the whole trace lasts one second. -/
theorem C9_fixed_throttle (env : Env) (hd : env.dirExists = true)
    (ht : env.tokenPresent = true)
    (hv : ∀ f ∈ discover env.listing, (env.contents f).usable = true)
    (hc : strToLower env.confirm = "y") :
    (run env).events.filter isReqOrSleep = reqSleepSeq (discover env.listing) ∧
    (∀ e ∈ (run env).events, ∀ d, e = Event.sleep d → d = 1) := by
  rw [run_full env hd ht hv hc]
  constructor
  · simp [List.filter_append, mapRead_filter, loopTrace_filter, List.filter,
          isReqOrSleep]
  · intro e he d hd'
    simp only [List.mem_append, List.mem_cons] at he
    rcases he with he | he | he
    · exact mapRead_no_sleep (discover env.listing) e he d hd'
    · subst he; cases hd'
    · exact loopTrace_sleep_one (discover env.listing) e he d hd'

/-- C9 witness: the mixed environment produces the alternating request and
one second pause pattern for its two files. -/
theorem C9_fixed_throttle_witness :
    (run envMixed).events.filter isReqOrSleep =
      [Event.request "phase1-issue01.json", Event.sleep 1,
       Event.request "phase1-issue02.json", Event.sleep 1] := by
  obtain ⟨h1, _⟩ :=
    C9_fixed_throttle envMixed (by decide) (by decide) (by decide) (by decide)
  rw [h1]
  decide

lemma ascendingKeys_chain : ∀ l, ascendingKeys l = true →
    List.Chain' (fun a b => keyLt a b = true) l := by
  intro l
  induction l with
  | nil => intro _; exact List.chain'_nil
  | cons a l ih =>
    cases l with
    | nil => intro _; simp
    | cons b rest =>
      intro h
      simp only [ascendingKeys, Bool.and_eq_true] at h
      exact List.Chain'.cons h.1 (ih h.2)

lemma keyLt_iff (a b : String × Nat) :
    keyLt a b = true ↔ (strLt a.1 b.1 = true ∨ (a.1 = b.1 ∧ a.2 < b.2)) := by
  simp [keyLt, Nat.blt_eq]

/-- C2: over the whole materialized batch, whose phases are single digits
and whose sequence numbers stay below 100, the zero padded file names are
pairwise distinct, the generation order is strictly ascending in phase
then sequence, sorting the file names lexicographically leaves them in
that very order, and the path the Materializer writes is exactly the
issues directory joined with the name the Submitter discovers. -/
theorem C2_filename_order :
    (fullBatchKeys.map (fun k => issueName k.1 k.2)).Nodup ∧
    List.Chain' (fun a b => keyLt a b = true) fullBatchKeys ∧
    sortStrings (fullBatchKeys.map (fun k => issueName k.1 k.2)) =
      fullBatchKeys.map (fun k => issueName k.1 k.2) ∧
    fullBatchKeys.all (fun k => k.1.length == 1 && decide (k.2 < 100)) = true ∧
    (∀ i : IssueDef, writePath i = "github-issues/" ++ issueName i.phase i.number) := by
  refine ⟨by decide, ascendingKeys_chain _ (by decide), by decide, by decide, ?_⟩
  intro i
  have h : ("github-issues/phase" : String) = "github-issues/" ++ "phase" := by decide
  simp only [writePath, issueName, String.append_assoc]
  rw [h, String.append_assoc]

lemma writeLoop_dirs (mk : IssueDef → IssueData) (issues : List IssueDef) :
    ∀ fs : FS, (writeLoop mk issues fs).dirs = fs.dirs := by
  induction issues with
  | nil => intro fs; rfl
  | cons i is ih => intro fs; exact ih (fsWrite (writePath i) (mk i) fs)

lemma mkdirAll_dirs_mem (d : String) (fs : FS) : d ∈ (mkdirAll d fs).dirs := by
  unfold mkdirAll
  by_cases h : d ∈ fs.dirs <;> simp [h]

lemma writeLoop_files (mk : IssueDef → IssueData) (issues : List IssueDef) :
    ∀ (fs : FS) (p : String), (writeLoop mk issues fs).files p =
      match lastWritten mk issues p with
      | some c => some c
      | none => fs.files p := by
  induction issues with
  | nil => intro fs p; simp [writeLoop, lastWritten]
  | cons i is ih =>
    intro fs p
    have hstep : writeLoop mk (i :: is) fs =
        writeLoop mk is (fsWrite (writePath i) (mk i) fs) := rfl
    rw [hstep, ih]
    have hrev : (i :: is).reverse = is.reverse ++ [i] := by simp
    unfold lastWritten
    rw [hrev, List.find?_append]
    cases hfind : is.reverse.find? (fun j => writePath j == p) with
    | some j => simp [lastWritten, hfind, Option.or]
    | none =>
      simp only [lastWritten, hfind, Option.or, List.find?]
      by_cases hp : writePath i = p
      · simp [hp, fsWrite]
      · have hp' : (writePath i == p) = false := beq_false_of_ne hp
        have hq : p ≠ writePath i := fun hh => hp hh.symm
        simp [hp', fsWrite, hq]

lemma materializeAll_files (is1 is2 : List IssueDef) (fs : FS) (p : String) :
    (materializeAll is1 is2 fs).files p =
      match plannedContent is1 is2 p with
      | some c => some c
      | none => fs.files p := by
  unfold materializeAll materializeLater materializeEarly plannedContent
  rw [writeLoop_files]
  cases h2 : lastWritten mkLater is2 p with
  | some c => simp
  | none =>
    simp only
    have hmk : (mkdirAll "github-issues"
        (writeLoop mkEarly is1 (mkdirAll "github-issues" fs))).files =
        (writeLoop mkEarly is1 (mkdirAll "github-issues" fs)).files := rfl
    rw [hmk, writeLoop_files]
    cases h1 : lastWritten mkEarly is1 p with
    | some c => simp
    | none => simp [mkdirAll]

/-- C7: the Materializer is idempotent and deterministic: a second run over
the same literal issue lists leaves every file exactly as the first run
wrote it, the issues directory is present after a run, and the content at
every path the run writes is a function of the issue lists alone, written
over whatever the file system previously held there. -/
theorem C7_materializer_idempotent (is1 is2 : List IssueDef) (fs : FS) :
    (∀ p, (materializeAll is1 is2 (materializeAll is1 is2 fs)).files p =
      (materializeAll is1 is2 fs).files p) ∧
    "github-issues" ∈ (materializeAll is1 is2 fs).dirs ∧
    (∀ (gs : FS) (p : String), (materializeAll is1 is2 gs).files p =
      match plannedContent is1 is2 p with
      | some c => some c
      | none => gs.files p) := by
  refine ⟨?_, ?_, fun gs p => materializeAll_files is1 is2 gs p⟩
  · intro p
    rw [materializeAll_files, materializeAll_files]
    cases h : plannedContent is1 is2 p with
    | some c => simp
    | none => simp
  · unfold materializeAll materializeLater
    rw [writeLoop_dirs]
    exact mkdirAll_dirs_mem "github-issues" _

/-- C8 counterexample: in the concrete full run over one record, the
Submitter reads the record file twice, once during the preview and once in
the submission loop, so the count of reads is not one. -/
theorem C8_read_once_refuted :
    ¬ ((run envSingle).events.count (Event.readFile "phase1-issue01.json") = 1) := by
  decide

/-- C8 amended: during a full run over a duplicate free listing, each
discovered record file is read exactly twice, once by the preview and once
by the submission loop, and no file is ever written. -/
theorem C8_read_twice_never_written (env : Env) (hd : env.dirExists = true)
    (ht : env.tokenPresent = true)
    (hv : ∀ f ∈ discover env.listing, (env.contents f).usable = true)
    (hc : strToLower env.confirm = "y") (hnd : env.listing.Nodup) :
    (∀ f ∈ discover env.listing,
      (run env).events.count (Event.readFile f) = 2) ∧
    (∀ g, (run env).events.count (Event.writeFile g) = 0) := by
  rw [run_full env hd ht hv hc]
  dsimp only
  constructor
  · intro f hf
    have h1 := discover_count env.listing f hnd hf
    simp [List.count_append, List.count_cons, mapRead_count_read,
          loopTrace_count_read, h1]
  · intro g
    simp [List.count_append, List.count_cons, mapRead_count_write,
          loopTrace_count_write]

/-- C8 witness: the amended statement evaluated on the one record
environment. -/
theorem C8_read_twice_witness :
    (run envSingle).events.count (Event.readFile "phase1-issue01.json") = 2 ∧
      (run envSingle).events.count (Event.writeFile "phase1-issue01.json") = 0 := by
  obtain ⟨h1, h2⟩ := C8_read_twice_never_written envSingle (by decide) (by decide)
    (by decide) (by decide) (by decide)
  exact ⟨h1 "phase1-issue01.json" (by decide), h2 "phase1-issue01.json"⟩
